import Mathlib

/-!
Verification development for the opensearch-loader repository.

Shallow embedding of the pipeline in `src/opensearch_loader/`:
`memgraph_client.py` (read-only validation and pagination),
`opensearch_client.py` (document store and bulk write semantics),
`loader.py` (mapping parsing, field validation, per-index orchestration),
`config.py` (index selection).  Network backends are modelled through
explicit state passing and oracle functions; fallible code returns
`Except String`.
-/

set_option autoImplicit false

namespace OSL

/-! ## Loosely-typed record values

Python dictionaries appearing in query results and documents are modelled
as association lists of `Val`.  Insertion order is the list order, as in
Python dicts. -/

inductive Val where
  | vstr (s : String)
  | vint (n : Int)
  | vbool (b : Bool)
  | vnull
  | vobj (fields : List (String × Val))
  | varr (elems : List Val)
deriving Repr, Inhabited

/-- A record / document: a Python dict of field name to value. -/
abbrev Doc := List (String × Val)

/-- Python dict lookup `d.get(key)`: first binding wins, `none` when absent. -/
def pyGet {V : Type} : List (String × V) → String → Option V
  | [], _ => none
  | (k, v) :: rest, key => if k = key then some v else pyGet rest key

/-- Python truthiness of a value (`if not doc_id: ...`). -/
def pyTruthy : Val → Bool
  | Val.vstr s => decide (s ≠ "")
  | Val.vint n => decide (n ≠ 0)
  | Val.vbool b => b
  | Val.vnull => false
  | Val.vobj f => !f.isEmpty
  | Val.varr l => !l.isEmpty

/-- Python `str(value)` restricted to the scalar shapes used as document IDs. -/
def pyStr : Val → String
  | Val.vstr s => s
  | Val.vint n => toString n
  | Val.vbool b => if b then "True" else "False"
  | Val.vnull => "None"
  | Val.vobj _ => "obj"
  | Val.varr _ => "arr"

/-- Python dict merge of `a` under `b` (`merged = \x7b**existing, **updates\x7d`
in `merge_document`): keys of `a` in order with values taken from `b` when
present, then the keys of `b` absent from `a`. -/
def dictMerge {V : Type} (a b : List (String × V)) : List (String × V) :=
  a.map (fun kv => (kv.1, (pyGet b kv.1).getD kv.2)) ++
    b.filter (fun kv => (pyGet a kv.1).isNone)

/-- Replace the binding of `key` (or append it), as a document store write. -/
def setAssoc {V : Type} : List (String × V) → String → V → List (String × V)
  | [], key, v => [(key, v)]
  | (k, w) :: rest, key, v =>
    if k = key then (key, v) :: rest else (k, w) :: setAssoc rest key v

/-- First-of-two option choice, used to state merge lookups. -/
def orO {V : Type} : Option V → Option V → Option V
  | some v, _ => some v
  | none, b => b

/-! ## memgraph_client.py — read-only validation and pagination -/

/-- If `kw` is an initial segment of `s`, return the remaining characters. -/
def takeAfter : List Char → List Char → Option (List Char)
  | [], s => some s
  | _ :: _, [] => none
  | k :: ks, c :: cs => if c = k then takeAfter ks cs else none

/-- Character-level whitespace strip, the Python `str.strip()`. -/
def trimChars (s : List Char) : List Char :=
  (((s.dropWhile Char.isWhitespace).reverse).dropWhile Char.isWhitespace).reverse

/-- Python `value.strip()` on a string. -/
def pyStrip (s : String) : String := String.mk (trimChars s.toList)

/-- Upper-cased character sequence of a string (`query.upper()`). -/
def upperChars (s : String) : List Char := s.toList.map Char.toUpper

/-- Lower-cased character sequence of a string (`str(...).lower()`). -/
def lowerChars (s : String) : List Char := s.toList.map Char.toLower

/-- Whether `pat` occurs as a contiguous subsequence of `s`. -/
def subOccurs (pat : List Char) : List Char → Bool
  | [] => pat.isEmpty
  | c :: cs => (takeAfter pat (c :: cs)).isSome || subOccurs pat cs

/-- Substring containment, the Python `pat in s` test. -/
def containsSub (s pat : String) : Bool := subOccurs pat.toList s.toList

/-- Substring containment over a character sequence. -/
def containsSubChars (s : List Char) (pat : String) : Bool :=
  subOccurs pat.toList s

/-- Python regex word character, the class matched inside `\b` boundaries. -/
def isWordChar (c : Char) : Bool := c.isAlphanum || c = '_'

/-- One position of the whole-word scan: `kw` matches here when it is an
initial segment, the previous character (if any) is not a word character,
and the character following the match (if any) is not a word character. -/
def wordAt (kw : List Char) (prev : Option Char) (s : List Char) : Bool :=
  match takeAfter kw s with
  | none => false
  | some rest =>
    (match prev with
     | none => true
     | some p => !isWordChar p) &&
    (match rest with
     | [] => true
     | c :: _ => !isWordChar c)

/-- Scan for a whole-word occurrence, the `re.search` of
`\bKEYWORD\b` over the upper-cased query. -/
def occursAsWordAux (kw : List Char) : Option Char → List Char → Bool
  | prev, [] => wordAt kw prev []
  | prev, c :: cs => wordAt kw prev (c :: cs) || occursAsWordAux kw (some c) cs

/-- The set `WRITE_KEYWORDS` from `memgraph_client.py`. -/
def writeKeywords : List String :=
  ["CREATE", "SET", "DELETE", "REMOVE", "MERGE", "DETACH", "DROP", "FOREACH"]

/-- Whether the upper-cased query contains a mutating keyword as a whole
word (`validate_read_only`, keyword loop). -/
def hasWriteKeyword (query : String) : Bool :=
  writeKeywords.any (fun kw => occursAsWordAux kw.toList none (upperChars query))

/-- Whether the query contains a read clause
(neither MATCH nor RETURN occurs in the upper-cased query text). -/
def hasReadClause (query : String) : Bool :=
  containsSubChars (upperChars query) "MATCH" || containsSubChars (upperChars query) "RETURN"

/-- Embedding of `validate_read_only` from `memgraph_client.py`: rejects any whole-word
mutating keyword, then requires a MATCH or RETURN occurrence. -/
def validate_read_only (query : String) : Except String Unit :=
  if hasWriteKeyword query then
    Except.error "UnsafeQuery: query contains write operation"
  else if !hasReadClause query then
    Except.error "UnsafeQuery: query must contain MATCH or RETURN clause"
  else
    Except.ok ()

/-- Skip-parameter test: the query must contain the token `$skip` or `$SKIP`. -/
def hasSkipParam (query : String) : Bool :=
  containsSub query "$skip" || containsSub query "$SKIP"

/-- Limit-parameter test: the query must contain the token `$limit` or `$LIMIT`. -/
def hasLimitParam (query : String) : Bool :=
  containsSub query "$limit" || containsSub query "$LIMIT"

/-- Embedding of `validate_pagination_params` from `memgraph_client.py`. -/
def validate_pagination_params (query : String) : Except String Unit :=
  if !hasSkipParam query then
    Except.error "MissingPaginationParameter: query must contain skip"
  else if !hasLimitParam query then
    Except.error "MissingPaginationParameter: query must contain limit"
  else
    Except.ok ()

/-- Embedding of `execute_query` from `memgraph_client.py`.  The network round trip
(`session.run`) is abstracted as the oracle `fetch`; the returned flag
records whether the oracle was consulted, i.e. whether a network call was
made.  Both validations run before the fetch. -/
def execute_query (fetch : Unit → List Doc) (query : String) :
    Except String (List Doc) × Bool :=
  match validate_read_only query with
  | Except.error e => (Except.error e, false)
  | Except.ok _ =>
    match validate_pagination_params query with
    | Except.error e => (Except.error e, false)
    | Except.ok _ => (Except.ok (fetch ()), true)

/-- Parameter merge of one pagination step
(`merged_params = \x7b**parameters, **pagination_params\x7d`). -/
def mergedParams (vars : List (String × Int)) (offset pageSize : Int) :
    List (String × Int) :=
  dictMerge vars [("skip", offset), ("limit", pageSize)]

/-- The page a skip/limit query step returns over the full result list of
the query: `skip` rows are dropped and at most `limit` rows are taken. -/
def fetchFromList (results : List Doc) (pageSize : Nat) (offset : Nat) :
    List Doc :=
  (results.drop offset).take pageSize

/-- The pagination loop of `execute_paginated_query` (default
`test_mode=False` path): fetch a page at the current offset, stop before
yielding when it is empty, yield it, stop after yielding when it is
shorter than `page_size`, otherwise advance the offset by `page_size`.
Returns the yielded pages and `total_results`.  `fuel` bounds the
`while True` loop so the function is total; any `fuel` larger than the
number of result rows is enough. -/
def paginateGo (fetch : Nat → List Doc) (pageSize : Nat) :
    Nat → Nat → Nat → List (List Doc) × Nat
  | 0, _, total => ([], total)
  | fuel + 1, offset, total =>
    let page := fetch offset
    if page.length = 0 then ([], total)
    else if page.length < pageSize then ([page], total + page.length)
    else
      let r := paginateGo fetch pageSize fuel (offset + pageSize) (total + page.length)
      (page :: r.1, r.2)

/-- Embedding of `execute_paginated_query` from `memgraph_client.py`, starting at
offset 0. -/
def execute_paginated_query (fetch : Nat → List Doc) (pageSize fuel : Nat) :
    List (List Doc) × Nat :=
  paginateGo fetch pageSize fuel 0 0

/-! ## opensearch_client.py — document store and bulk write semantics

The destination index is modelled as an association list of document ID
to document source.  The backend `bulk` helper is modelled per the
interface the loader consumes: it returns a success count and the list of
failed items instead of raising. -/

/-- One OpenSearch index: document ID to `_source`. -/
abbrev Store := List (String × Doc)

/-- Embedding of `get_document`: the stored source, `none` when absent. -/
def get_document (idx : Store) (docId : String) : Option Doc :=
  pyGet idx docId

/-- Embedding of `upsert_document`, that is `client.index(index, id, body)`: create or fully
replace the document under `docId`. -/
def upsert_document (idx : Store) (docId : String) (document : Doc) : Store :=
  setAssoc idx docId document

/-- Embedding of `merge_document`: read the existing document, shallow-merge the
updates over it (updates win), create from the updates alone when the
document does not exist, then upsert the result. -/
def merge_document (idx : Store) (docId : String) (updates : Doc) : Store :=
  match get_document idx docId with
  | some existing => upsert_document idx docId (dictMerge existing updates)
  | none => upsert_document idx docId updates

/-- One `bulk_upsert` index action: `\x7b_index, _id, _source\x7d`; the
`id_field` is kept inside the source. -/
structure UpsertAction where
  actionId : String
  source : Doc

/-- The action list `bulk_upsert` builds: records whose `id_field` value
is missing or falsy are skipped with a warning; the whole record becomes
the source. -/
def buildUpsertActions (idFld : String) : List Doc → List UpsertAction
  | [] => []
  | doc :: rest =>
    match pyGet doc idFld with
    | none => buildUpsertActions idFld rest
    | some v =>
      if pyTruthy v then
        ⟨pyStr v, doc⟩ :: buildUpsertActions idFld rest
      else
        buildUpsertActions idFld rest

/-- Backend `bulk` applied to index actions: each action creates or
replaces the target document. -/
def applyUpsertActions (idx : Store) : List UpsertAction → Store
  | [] => idx
  | a :: rest => applyUpsertActions (upsert_document idx a.actionId a.source) rest

/-- Embedding of `bulk_upsert` from `opensearch_client.py`. -/
def bulk_upsert (idx : Store) (documents : List Doc) (idFld : String) : Store :=
  applyUpsertActions idx (buildUpsertActions idFld documents)

/-- One `bulk_update` action: `\x7b_op_type: update, _id, doc,
doc_as_upsert: False\x7d`. -/
structure UpdateAction where
  actionId : String
  updateDoc : Doc

/-- The action list `_process_update_batch` builds: a record whose
`id_field` value is missing or falsy is skipped; the `id_field` binding is
stripped from the update body; a record with an empty remaining body is
skipped. -/
def buildUpdateActions (idFld : String) : List Doc → List UpdateAction
  | [] => []
  | u :: rest =>
    match pyGet u idFld with
    | none => buildUpdateActions idFld rest
    | some v =>
      if pyTruthy v then
        let body := u.filter (fun kv => decide (kv.1 ≠ idFld))
        if body.isEmpty then buildUpdateActions idFld rest
        else ⟨pyStr v, body⟩ :: buildUpdateActions idFld rest
      else
        buildUpdateActions idFld rest

/-- Backend `bulk` applied to update actions with `doc_as_upsert=False`
(per the §6 interface: returns success count and failed items).  An
update of an existing document shallow-merges the body into its source;
an update of a missing document produces a failed item whose error type
is `document_missing_exception` and changes nothing.  Returns the new
store, the success count and the error types of the failed items. -/
def applyUpdateActions (idx : Store) : List UpdateAction → Store × Nat × List String
  | [] => (idx, 0, [])
  | a :: rest =>
    match pyGet idx a.actionId with
    | some existing =>
      let r := applyUpdateActions (setAssoc idx a.actionId (dictMerge existing a.updateDoc)) rest
      (r.1, r.2.1 + 1, r.2.2)
    | none =>
      let r := applyUpdateActions idx rest
      (r.1, r.2.1, "document_missing_exception" :: r.2.2)

/-- Failed-item classification in `_process_update_batch`: an error type
naming a missing document is counted separately from other failures.
The error reason string the code lowercases contains the error type, so
the containment tests are applied to the type itself. -/
def isMissingDocError (errType : String) : Bool :=
  containsSub errType "document_missing_exception" ||
    containsSub errType "not_found" ||
    containsSubChars (lowerChars errType) "not_found" ||
    containsSubChars (lowerChars errType) "document_missing"

/-- Embedding of `_process_update_batch`: build the actions for one batch; with no
valid action the backend is not called; otherwise run the bulk update and
split its failed items into missing-document skips and other errors.
Returns the new store, the missing-document count and the other-error
count. -/
def process_update_batch (idx : Store) (updates : List Doc) (idFld : String) :
    Store × Nat × Nat :=
  let actions := buildUpdateActions idFld updates
  if actions.isEmpty then (idx, 0, 0)
  else
    let r := applyUpdateActions idx actions
    let missing := r.2.2.countP isMissingDocError
    (r.1, missing, r.2.2.length - missing)

/-- The fixed `BATCH_SIZE = 5000` of `bulk_update`. -/
def updateBatchSize : Nat := 5000

/-- The batch decomposition `updates[i:i + BATCH_SIZE]` of `bulk_update`. -/
def splitBatches : List Doc → List (List Doc)
  | [] => []
  | u :: rest =>
    (u :: rest).take updateBatchSize :: splitBatches ((u :: rest).drop updateBatchSize)
termination_by l => l.length
decreasing_by
  simp only [updateBatchSize, List.length_drop, List.length_cons]
  omega

/-- Embedding of `bulk_update` from `opensearch_client.py`: nothing happens on an
empty update list; otherwise the updates are processed in fixed-size
batches, accumulating the missing-document and other-error counts. -/
def bulk_update (idx : Store) (updates : List Doc) (idFld : String) :
    Store × Nat × Nat :=
  (splitBatches updates).foldl
    (fun acc batch =>
      let r := process_update_batch acc.1 batch idFld
      (r.1, acc.2.1 + r.2.1, acc.2.2 + r.2.2))
    (idx, 0, 0)

/-! ## Python call binding

`loader.py` invokes the OpenSearch client with keyword arguments.  The
binding of a call site against a function signature is modelled far
enough to decide whether Python raises `TypeError` for an unexpected
keyword argument before the function body runs. -/

/-- A Python function signature: its parameter names (excluding `self`);
no `**kwargs` catch-all is present on any modelled client method. -/
structure PySig where
  params : List String

/-- A call site: how many positional arguments are passed, and which
keyword names. -/
structure PyCallArgs where
  positional : Nat
  keywords : List String

/-- Keyword binding check: Python raises
`TypeError: got an unexpected keyword argument` when a keyword name is
not among the parameters, and `multiple values` when a keyword repeats a
positionally-filled parameter. -/
def callBinds (sig : PySig) (call : PyCallArgs) : Except String Unit :=
  if sig.params.length < call.positional then
    Except.error "TypeError: too many positional arguments"
  else if call.keywords.any (fun k => !(sig.params.contains k)) then
    Except.error "TypeError: unexpected keyword argument"
  else if call.keywords.any (fun k => (sig.params.take call.positional).contains k) then
    Except.error "TypeError: multiple values for argument"
  else
    Except.ok ()

/-- Signature of `OpenSearchClient.create_index(self, index_name,
id_field=None)` in `src/opensearch_loader/opensearch_client.py`. -/
def createIndexSig : PySig := ⟨["index_name", "id_field"]⟩

/-- The invocation made by the loader,
`self.opensearch.create_index(index_name, mapping=parsed_mapping,
force=True)`, at `loader.py:526`. -/
def loaderCreateIndexCall : PyCallArgs := ⟨1, ["mapping", "force"]⟩

/-- Signature of `OpenSearchClient.bulk_upsert(self, index_name,
documents, id_field)`. -/
def bulkUpsertSig : PySig := ⟨["index_name", "documents", "id_field"]⟩

/-- The invocation made by the loader, `self.opensearch.bulk_upsert(index_name,
page_documents, id_field, query_name=query_name)`, at `loader.py:573`. -/
def loaderBulkUpsertCall : PyCallArgs := ⟨3, ["query_name"]⟩

/-! ## loader.py `_parse_mapping` — grouped declaration to mapping -/

/-- A normalized mapping entry: a plain typed field, or a synthesized
object field holding nested property types. -/
inductive MappingEntry where
  | leaf (fieldType : String)
  | objectOf (props : List (String × String))
deriving Repr, DecidableEq

/-- The parsed mapping: field name to entry, in insertion order. -/
abbrev Mapping := List (String × MappingEntry)

/-- The closed type set `valid_types` from `_parse_mapping`. -/
def valid_types : List String :=
  ["keyword", "text", "search_as_you_type", "long", "integer",
   "double", "float", "boolean", "date", "object"]

/-- Parser state: top-level `result` entries and the `nested_fields`
accumulator (parent object to its property types, insertion order). -/
structure PMState where
  result : List (String × String)
  nested : List (String × List (String × String))
deriving Repr, DecidableEq

/-- Character-level split on a separator, the Python dot split of a field
(an empty string yields one empty part, as in Python). -/
def splitOnChar (sep : Char) : List Char → List (List Char)
  | [] => [[]]
  | c :: cs =>
    let r := splitOnChar sep cs
    if c = sep then [] :: r
    else
      match r with
      | [] => [[c]]
      | h :: t => (c :: h) :: t

/-- Python `field.split` on the dot separator, as strings. -/
def pySplitDot (s : String) : List String :=
  (splitOnChar '.' s.toList).map String.mk

/-- Processing of one declared field name inside the field
loop of `_parse_mapping`: strip, reject blank names, reject a duplicate (against top-level
names and the bare property names of every nested parent), then route by dot
count. -/
def processField (st : PMState) (fieldType fieldRaw : String) :
    Except String PMState :=
  if pyStrip fieldRaw = "" then
    Except.error "InvalidMapping: field name must be a non-empty string"
  else
    let field := pyStrip fieldRaw
    if st.result.any (fun kv => kv.1 = field) ||
        st.nested.any (fun n => n.2.any (fun p => p.1 = field)) then
      Except.error "InvalidMapping: duplicate field definition"
    else
      match pySplitDot field with
      | [f] => Except.ok { st with result := st.result ++ [(f, fieldType)] }
      | [parent, prop] =>
        match pyGet st.nested parent with
        | some props =>
          if props.any (fun p => p.1 = prop) then
            Except.error "InvalidMapping: duplicate nested property"
          else
            Except.ok
              { st with nested := setAssoc st.nested parent (props ++ [(prop, fieldType)]) }
        | none =>
          Except.ok { st with nested := st.nested ++ [(parent, [(prop, fieldType)])] }
      | _ =>
        Except.error "InvalidMapping: nested properties must use single-level dot notation"

/-- Processing of one `type: [fields]` group: the type must be in the
closed type set, then each field is processed in order. -/
def processGroup (st : PMState) (fieldType : String) (fields : List String) :
    Except String PMState :=
  if !(valid_types.contains fieldType) then
    Except.error "InvalidMapping: invalid field type"
  else
    fields.foldlM (fun s f => processField s fieldType f) st

/-- The closing loop of `_parse_mapping`: append each nested parent as an
object entry, rejecting a parent that collides with an existing top-level
field. -/
def finalizeMapping (st : PMState) : Except String Mapping :=
  st.nested.foldlM
    (fun acc pn =>
      if acc.any (fun kv => kv.1 = pn.1) then
        Except.error "InvalidMapping: top-level field conflicts with nested parent"
      else Except.ok (acc ++ [(pn.1, MappingEntry.objectOf pn.2)]))
    (st.result.map (fun ft => (ft.1, MappingEntry.leaf ft.2)))

/-- Embedding of `_parse_mapping` from `loader.py`: the grouped declaration (a dict of
type name to field-name list, in insertion order) becomes a normalized
mapping or an `InvalidMapping` error. -/
def parse_mapping (cfg : List (String × List String)) : Except String Mapping :=
  if cfg.isEmpty then
    Except.error "InvalidMapping: mapping configuration cannot be empty"
  else do
    let st ← cfg.foldlM (fun s g => processGroup s g.1 g.2) ⟨[], []⟩
    let m ← finalizeMapping st
    if m.isEmpty then
      Except.error "InvalidMapping: mapping must contain at least one field"
    else Except.ok m

/-! ## loader.py `_extract_field_names` / `_validate_query_fields` -/

mutual
/-- Embedding of `_extract_field_names` over the bindings of a document: each key becomes a
(dot-prefixed) field name, and nested names are collected from its
value. -/
def extractDoc : List (String × Val) → String → List String
  | [], _ => []
  | (k, v) :: rest, pre =>
    let name := if pre = "" then k else pre ++ "." ++ k
    (name :: extractVal v name) ++ extractDoc rest pre

/-- Nested names below one value: descend into a dict, and into the
first element of a non-empty list when that element is a dict. -/
def extractVal : Val → String → List String
  | Val.vobj d, name => extractDoc d name
  | Val.varr (Val.vobj d :: _), name => extractDoc d name
  | _, _ => []
end

/-- Entry point of `_extract_field_names` with the empty prefix. -/
def extract_field_names (doc : Doc) : List String := extractDoc doc ""

/-- The set `all_fields`: the union of the field names of every record (a Python set,
modelled as a deduplicated list). -/
def collectFields (docs : List Doc) : List String :=
  (docs.foldl (fun acc d => acc ++ extract_field_names d) []).dedup

/-- The membership check of `_validate_query_fields`: a field is mapped
when it is a mapping key, or is a two-part dotted name whose parent is an
object entry declaring the property. -/
def isFieldMapped (m : Mapping) (f : String) : Bool :=
  if m.any (fun kv => kv.1 = f) then true
  else
    match pySplitDot f with
    | [parent, prop] =>
      match pyGet m parent with
      | some (MappingEntry.objectOf props) => props.any (fun p => p.1 = prop)
      | _ => false
    | _ => false

/-- The `unmapped_fields` list built by `_validate_query_fields`. -/
def unmappedFields (m : Mapping) (docs : List Doc) : List String :=
  (collectFields docs).filter (fun f => !(isFieldMapped m f))

/-- Embedding of `_validate_query_fields`: an empty page validates trivially;
otherwise the unmapped fields of the page are reported (an empty report
means validation passed). -/
def validate_query_fields (m : Mapping) (documents : List Doc) : List String :=
  if documents.isEmpty then [] else unmappedFields m documents

/-! ## loader.py `_process_query_index` — page loop, retry, abort

The page loop of the initial query.  The outcome of each backend
`bulk_upsert` call (including any exception it raises) is abstracted by
the oracle `fails page attempt`; the page validator is a parameter so the
real `validate_query_fields` can be plugged in.  The trace of observable
operations is returned alongside the outcome. -/

/-- Observable events of one query-index run. -/
inductive Ev where
  | validateEv (page : Nat)
  | writeAttempt (page attempt : Nat)
  | refreshEv
  | updateQueryEv (i : Nat)
deriving Repr, DecidableEq

/-- Outcome of the initial-query page loop. -/
inductive PagesOutcome where
  | completed (total : Nat)
  | validationFailed (unmapped : List String)
  | writeFailed
deriving Repr, DecidableEq

/-- The `for page_documents in ...` loop of `_process_query_index`:
`page` numbers count from 1; empty pages are skipped; the first non-empty
page is validated once and a failure returns immediately; each page is
written with exactly one retry on failure, a failed retry re-raising and
ending the loop. -/
def processPagesGo (fails : Nat → Nat → Bool) (vf : List Doc → List String) :
    List (List Doc) → Nat → Nat → Bool → List Ev × PagesOutcome
  | [], _, total, _ => ([], PagesOutcome.completed total)
  | p :: rest, seen, total, validated =>
    let pn := seen + 1
    if p.isEmpty then processPagesGo fails vf rest pn total validated
    else if !validated && !(vf p).isEmpty then
      ([Ev.validateEv pn], PagesOutcome.validationFailed (vf p))
    else
      let valEvs := if validated then [] else [Ev.validateEv pn]
      if fails pn 0 = false then
        let r := processPagesGo fails vf rest pn (total + p.length) true
        (valEvs ++ Ev.writeAttempt pn 0 :: r.1, r.2)
      else if fails pn 1 = false then
        let r := processPagesGo fails vf rest pn (total + p.length) true
        (valEvs ++ Ev.writeAttempt pn 0 :: Ev.writeAttempt pn 1 :: r.1, r.2)
      else
        (valEvs ++ [Ev.writeAttempt pn 0, Ev.writeAttempt pn 1],
          PagesOutcome.writeFailed)

/-- Embedding of `_process_query_index` after mapping parse and index creation: run
the page loop; a validation failure returns 0 with no further work; a
write failure propagates out of the index; on completion the index is
refreshed, the update queries run in order, and a final refresh happens
when update queries exist. -/
def process_query_index (fails : Nat → Nat → Bool) (vf : List Doc → List String)
    (numUpdates : Nat) (pages : List (List Doc)) :
    List Ev × Except String Nat :=
  let r := processPagesGo fails vf pages 0 0 false
  match r.2 with
  | PagesOutcome.validationFailed _ => (r.1, Except.ok 0)
  | PagesOutcome.writeFailed => (r.1, Except.error "WriteFailure")
  | PagesOutcome.completed total =>
    (r.1 ++ Ev.refreshEv :: (List.range numUpdates).map Ev.updateQueryEv ++
      (if numUpdates = 0 then [] else [Ev.refreshEv]),
      Except.ok total)

/-! ## loader.py `load` — per-index fault isolation and summary -/

/-- One row of the run summary (`self.index_stats`): `document_count` is
`none` for an `ERROR` row. -/
structure IndexStat where
  indexName : String
  documentCount : Option Nat
  duration : Nat
  errorFlag : Bool
deriving Repr, DecidableEq

/-- The index loop of `load`: the outcome of each index becomes one stats row;
an exception is caught at the index boundary, recorded as an `ERROR` row
with the elapsed duration, and the loop continues.  `durs i` is the
elapsed time of index `i`. -/
def loadStatsGo (durs : Nat → Nat) :
    Nat → List (String × Except String Nat) → List IndexStat
  | _, [] => []
  | i, (n, r) :: rest =>
    (match r with
     | Except.ok c => IndexStat.mk n (some c) (durs i) false
     | Except.error _ => IndexStat.mk n none (durs i) true) ::
      loadStatsGo durs (i + 1) rest

/-- The summary rows of one run over the per-index outcomes. -/
def loadStats (durs : Nat → Nat) (results : List (String × Except String Nat)) :
    List IndexStat :=
  loadStatsGo durs 0 results

/-! ## loader.py `load_about_page` / `load_model` — auxiliary indices -/

/-- Observable OpenSearch operations of the auxiliary index loaders. -/
inductive OsOp where
  | deleteOp (name : String)
  | createOp (name : String)
  | upsertDocOp (name docId : String)
  | bulkUpsertOp (name : String) (docCount : Nat)
  | refreshOp (name : String)
deriving Repr, DecidableEq

/-- Whether a page record of the about file carries a `page` field that
is not `None` (a record whose page lookup is `None` is skipped). -/
def aboutPageHasId (page : Doc) : Bool :=
  match pyGet page "page" with
  | none => false
  | some Val.vnull => false
  | some _ => true

/-- The method table of `OpenSearchClient` as defined in
`src/opensearch_loader/opensearch_client.py`: each method name with its
parameter names (excluding `self`).  The class defines no
`refresh_index` method. -/
def clientMethods : List (String × PySig) :=
  [("index_exists", PySig.mk ["index_name"]),
   ("delete_index", PySig.mk ["index_name"]),
   ("create_index", PySig.mk ["index_name", "id_field"]),
   ("get_document", PySig.mk ["index_name", "doc_id"]),
   ("upsert_document", PySig.mk ["index_name", "doc_id", "document"]),
   ("merge_document", PySig.mk ["index_name", "doc_id", "updates"]),
   ("bulk_upsert", PySig.mk ["index_name", "documents", "id_field"]),
   ("bulk_update", PySig.mk ["index_name", "updates", "id_field"])]

/-- A call on the OpenSearch client object: Python attribute lookup
(raising `AttributeError` when the class defines no such method)
followed by keyword binding of the call (raising `TypeError` for an
unexpected keyword argument). -/
def callClient (method : String) (call : PyCallArgs) : Except String Unit :=
  match pyGet clientMethods method with
  | none => Except.error "AttributeError: no such client method"
  | some sig => callBinds sig call

/-- The per-page indexing loop of `load_about_page`: records without a
`page` value are skipped with a warning; each kept record is written
through `upsert_document(index_name, doc_id, page)` — three positional
arguments, bound against the client signature before the write.  A
failing call aborts the loop with the writes performed so far. -/
def aboutPagesOps (name : String) : List Doc → List OsOp × Except String Nat
  | [] => ([], Except.ok 0)
  | page :: rest =>
    if aboutPageHasId page then
      match callClient "upsert_document" (PyCallArgs.mk 3 []) with
      | Except.error e => ([], Except.error e)
      | Except.ok _ =>
        match aboutPagesOps name rest with
        | (ops, Except.error e) =>
          (OsOp.upsertDocOp name
              ("page" ++ pyStr ((pyGet page "page").getD Val.vnull)) :: ops,
            Except.error e)
        | (ops, Except.ok n) =>
          (OsOp.upsertDocOp name
              ("page" ++ pyStr ((pyGet page "page").getD Val.vnull)) :: ops,
            Except.ok (n + 1))
    else aboutPagesOps name rest

/-- Embedding of `load_about_page` from `loader.py`, with every client
call bound against the method table of `opensearch_client.py`: optional
`delete_index(index_name)`, optional
`create_index(index_name, mapping=mapping)` (`loader.py:644`), one
single-document upsert per page record carrying a `page` field, then
`refresh_index(index_name)` (`loader.py:666`).  A failing call raises:
the function aborts with the operations performed so far and the
error. -/
def load_about_page (clear allowCreate : Bool) (name : String)
    (pages : List Doc) : List OsOp × Except String Nat :=
  let delStep : Except String (List OsOp) :=
    if clear then
      match callClient "delete_index" (PyCallArgs.mk 1 []) with
      | Except.error e => Except.error e
      | Except.ok _ => Except.ok [OsOp.deleteOp name]
    else Except.ok []
  match delStep with
  | Except.error e => ([], Except.error e)
  | Except.ok ops0 =>
    let createStep : Except String (List OsOp) :=
      if allowCreate then
        match callClient "create_index" (PyCallArgs.mk 1 ["mapping"]) with
        | Except.error e => Except.error e
        | Except.ok _ => Except.ok (ops0 ++ [OsOp.createOp name])
      else Except.ok ops0
    match createStep with
    | Except.error e => (ops0, Except.error e)
    | Except.ok ops1 =>
      match aboutPagesOps name pages with
      | (pageOps, Except.error e) => (ops1 ++ pageOps, Except.error e)
      | (pageOps, Except.ok n) =>
        match callClient "refresh_index" (PyCallArgs.mk 1 []) with
        | Except.error e => (ops1 ++ pageOps, Except.error e)
        | Except.ok _ =>
          (ops1 ++ pageOps ++ [OsOp.refreshOp name], Except.ok n)

/-- Embedding of `load_model` from `loader.py`, with every client call
bound against the method table of `opensearch_client.py`: optional
`delete_index(index_name)`, optional
`create_index(index_name, mapping=mapping)` (`loader.py:774`), then —
when the in-memory document list is non-empty — one call
`bulk_upsert(index_name, documents, id_field=..., query_name=...)`
carrying the whole list (`loader.py:781`), then
`refresh_index(index_name)` (`loader.py:787`).  A failing call raises:
the function aborts with the operations performed so far and the
error. -/
def load_model (clear allowCreate : Bool) (name : String)
    (documents : List Doc) : List OsOp × Except String Nat :=
  let delStep : Except String (List OsOp) :=
    if clear then
      match callClient "delete_index" (PyCallArgs.mk 1 []) with
      | Except.error e => Except.error e
      | Except.ok _ => Except.ok [OsOp.deleteOp name]
    else Except.ok []
  match delStep with
  | Except.error e => ([], Except.error e)
  | Except.ok ops0 =>
    let createStep : Except String (List OsOp) :=
      if allowCreate then
        match callClient "create_index" (PyCallArgs.mk 1 ["mapping"]) with
        | Except.error e => Except.error e
        | Except.ok _ => Except.ok (ops0 ++ [OsOp.createOp name])
      else Except.ok ops0
    match createStep with
    | Except.error e => (ops0, Except.error e)
    | Except.ok ops1 =>
      let writeStep : Except String (List OsOp) :=
        if documents.isEmpty then Except.ok ops1
        else
          match callClient "bulk_upsert"
              (PyCallArgs.mk 2 ["id_field", "query_name"]) with
          | Except.error e => Except.error e
          | Except.ok _ =>
            Except.ok (ops1 ++ [OsOp.bulkUpsertOp name documents.length])
      match writeStep with
      | Except.error e => (ops1, Except.error e)
      | Except.ok ops2 =>
        match callClient "refresh_index" (PyCallArgs.mk 1 []) with
        | Except.error e => (ops2, Except.error e)
        | Except.ok _ =>
          (ops2 ++ [OsOp.refreshOp name], Except.ok documents.length)

/-! ## config.py `get_selected_indices` and the `load` selection filter -/

/-- Embedding of `get_selected_indices` (list branch): `None` stays `None`; an empty
list becomes `None`; otherwise the falsy entries are dropped, the rest
are trimmed, and an empty survivor list becomes `None`. -/
def get_selected_indices : Option (List String) → Option (List String)
  | none => none
  | some sel =>
    if sel.isEmpty then none
    else
      let trimmed := (sel.filter (fun v => decide (v ≠ ""))).map pyStrip
      if trimmed.isEmpty then none else some trimmed

/-- The selection filter of `load`: with no effective selection all index
names pass; otherwise `selected_set` keeps the trimmed truthy selection
names, and an index passes when its trimmed name is in the set. -/
def selectIndices (sel : Option (List String)) (names : List String) :
    List String :=
  match get_selected_indices sel with
  | none => names
  | some l =>
    let selSet := (l.filter (fun v => decide (v ≠ ""))).map pyStrip
    names.filter (fun n => selSet.contains (pyStrip n))

/-! ## Small discriminators used in statements -/

/-- Whether a client result is an error. -/
def isErr {α : Type} : Except String α → Bool
  | Except.error _ => true
  | Except.ok _ => false

/-- Event discriminator: a field-validation event. -/
def isValidateEv : Ev → Bool
  | Ev.validateEv _ => true
  | _ => false

/-- Operation discriminator: a bulk-upsert call. -/
def isBulkUpsertOp : OsOp → Bool
  | OsOp.bulkUpsertOp _ _ => true
  | _ => false

/-- Operation discriminator: a single-document upsert call. -/
def isUpsertDocOp : OsOp → Bool
  | OsOp.upsertDocOp _ _ => true
  | _ => false

/-! ## Lemmas -/

theorem pyGet_append {V : Type} (l₁ l₂ : List (String × V)) (k : String) :
    pyGet (l₁ ++ l₂) k = orO (pyGet l₁ k) (pyGet l₂ k) := by
  induction l₁ with
  | nil => simp [pyGet, orO]
  | cons hd tl ih =>
    cases hd with
    | mk k0 v0 =>
      by_cases h : k0 = k
      · simp [pyGet, h, orO]
      · simpa [pyGet, h, orO] using ih

theorem pyGet_map_value {V : Type} (a : List (String × V)) (g : String → V → V)
    (k : String) :
    pyGet (a.map (fun kv => (kv.1, g kv.1 kv.2))) k = (pyGet a k).map (g k) := by
  induction a with
  | nil => simp [pyGet]
  | cons hd tl ih =>
    cases hd with
    | mk k0 v0 =>
      by_cases h : k0 = k
      · subst h; simp [pyGet]
      · simpa [pyGet, h] using ih

theorem pyGet_filter_none {V : Type} (a b : List (String × V)) (k : String) :
    pyGet (b.filter (fun kv => (pyGet a kv.1).isNone)) k =
      (if (pyGet a k).isNone then pyGet b k else none) := by
  induction b with
  | nil => simp [pyGet]
  | cons hd tl ih =>
    cases hd with
    | mk k0 v0 =>
      by_cases h : k0 = k
      · subst h
        cases ha : (pyGet a k0).isNone with
        | true => simp [List.filter_cons, ha, pyGet]
        | false => simp [List.filter_cons, ha, pyGet, ih]
      · cases hp : (pyGet a k0).isNone with
        | true => simp [List.filter_cons, hp, pyGet, h, ih]
        | false => simp [List.filter_cons, hp, pyGet, h, ih]

/-- Lookup in a Python dict merge: the update side wins, untouched keys
survive. -/
theorem pyGet_dictMerge {V : Type} (a b : List (String × V)) (k : String) :
    pyGet (dictMerge a b) k = orO (pyGet b k) (pyGet a k) := by
  unfold dictMerge
  rw [pyGet_append,
    pyGet_map_value a (fun key v => (pyGet b key).getD v) k,
    pyGet_filter_none a b k]
  cases ha : pyGet a k with
  | none =>
    cases hb : pyGet b k <;> simp [orO, ha, hb]
  | some v =>
    cases hb : pyGet b k <;> simp [orO, ha, hb]

theorem pyGet_setAssoc {V : Type} (m : List (String × V)) (k : String) (v : V)
    (k' : String) :
    pyGet (setAssoc m k v) k' = if k = k' then some v else pyGet m k' := by
  induction m with
  | nil => simp [setAssoc, pyGet]
  | cons hd tl ih =>
    cases hd with
    | mk k0 w =>
      by_cases h0 : k0 = k
      · subst h0
        by_cases h1 : k0 = k' <;> simp [setAssoc, pyGet, h1]
      · by_cases h1 : k0 = k'
        · subst h1
          have hkk : ¬ k = k0 := fun h => h0 h.symm
          simp [setAssoc, h0, pyGet, hkk]
        · simp [setAssoc, h0, pyGet, h1, ih]

/-- A key filtered out of a dict can no longer be looked up
(`update_doc = \x7bk: v for k, v in update.items() if k != id_field\x7d`). -/
theorem pyGet_filter_ne {V : Type} (d : List (String × V)) (key : String) :
    pyGet (d.filter (fun kv => decide (kv.1 ≠ key))) key = none := by
  induction d with
  | nil => simp [pyGet]
  | cons hd tl ih =>
    cases hd with
    | mk k0 v0 =>
      by_cases h : k0 = key
      · subst h; simpa [List.filter_cons] using ih
      · simpa [List.filter_cons, h, pyGet] using ih

/-- The pagination pair always wins over caller-supplied variables. -/
theorem mergedParams_pagination_wins (vars : List (String × Int))
    (offset pageSize : Int) :
    pyGet (mergedParams vars offset pageSize) "skip" = some offset ∧
      pyGet (mergedParams vars offset pageSize) "limit" = some pageSize := by
  unfold mergedParams
  rw [pyGet_dictMerge, pyGet_dictMerge]
  constructor <;> simp [pyGet, orO]

/-- One-step unfolding of the pagination loop. -/
theorem paginateGo_succ (fetch : Nat → List Doc) (ps fuel offset total : Nat) :
    paginateGo fetch ps (fuel + 1) offset total =
      if (fetch offset).length = 0 then ([], total)
      else if (fetch offset).length < ps then
        ([fetch offset], total + (fetch offset).length)
      else
        (fetch offset ::
          (paginateGo fetch ps fuel (offset + ps) (total + (fetch offset).length)).1,
          (paginateGo fetch ps fuel (offset + ps) (total + (fetch offset).length)).2) :=
  rfl

/-- Pagination loop invariant over a skip/limit query with full result
list `L`: the yielded pages concatenate to the remaining rows, the total
counts them, every page is a non-empty page of at most `pageSize` rows,
and every non-final page has exactly `pageSize` rows. -/
theorem paginateGo_spec (L : List Doc) (ps : Nat) (hps : 1 ≤ ps) :
    ∀ fuel offset total, (L.drop offset).length < fuel →
      (paginateGo (fetchFromList L ps) ps fuel offset total).1.flatten =
          L.drop offset ∧
      (paginateGo (fetchFromList L ps) ps fuel offset total).2 =
          total + (L.drop offset).length ∧
      (∀ pg ∈ (paginateGo (fetchFromList L ps) ps fuel offset total).1,
          pg ≠ [] ∧ pg.length ≤ ps) ∧
      (∀ pg ∈ (paginateGo (fetchFromList L ps) ps fuel offset total).1.dropLast,
          pg.length = ps) := by
  intro fuel
  induction fuel with
  | zero => intro offset total h; omega
  | succ fuel ih =>
    intro offset total h
    have hpage : (fetchFromList L ps offset).length =
        min ps (L.drop offset).length := by
      simp [fetchFromList]
    have hp1 : (fetchFromList L ps offset).length ≤ ps := by
      rw [hpage]; exact Nat.min_le_left _ _
    have hp2 : (fetchFromList L ps offset).length ≤ (L.drop offset).length := by
      rw [hpage]; exact Nat.min_le_right _ _
    have hp3 : ps ≤ (fetchFromList L ps offset).length ∨
        (L.drop offset).length ≤ (fetchFromList L ps offset).length := by
      rw [hpage]
      rcases Nat.le_total ps (L.drop offset).length with hle | hle
      · exact Or.inl (Nat.le_of_eq (Nat.min_eq_left hle).symm)
      · exact Or.inr (Nat.le_of_eq (Nat.min_eq_right hle).symm)
    by_cases h0 : (fetchFromList L ps offset).length = 0
    · have hR : (L.drop offset).length = 0 := by
        rcases hp3 with hx | hx <;> omega
      have hRnil : L.drop offset = [] := List.length_eq_zero.mp hR
      rw [paginateGo_succ, if_pos h0]
      refine ⟨by simp [hRnil], by simp [hR], by simp, by simp⟩
    · by_cases hshort : (fetchFromList L ps offset).length < ps
      · have hRlen : (L.drop offset).length = (fetchFromList L ps offset).length := by
          rcases hp3 with hx | hx <;> omega
        have hpageR : fetchFromList L ps offset = L.drop offset := by
          unfold fetchFromList
          exact List.take_of_length_le (by omega)
        rw [paginateGo_succ, if_neg h0, if_pos hshort]
        refine ⟨by simp [hpageR], by simp [hRlen], ?_, by simp⟩
        intro pg hpg
        have hpg' : pg = fetchFromList L ps offset := by simpa using hpg
        subst hpg'
        exact ⟨fun hc => h0 (by rw [hc]; rfl), by omega⟩
      · -- full page: recurse with the offset advanced by one page size
        have hlen : (fetchFromList L ps offset).length = ps := by omega
        have hRge : ps ≤ (L.drop offset).length := by omega
        have hb : (L.drop offset).length = L.length - offset :=
          List.length_drop offset L
        have hdrop : L.drop (offset + ps) = (L.drop offset).drop ps := by
          rw [List.drop_drop]
        have hfuel : (L.drop (offset + ps)).length < fuel := by
          rw [hdrop]
          simp only [List.length_drop]
          omega
        obtain ⟨ih1, ih2, ih3, ih4⟩ :=
          ih (offset + ps) (total + (fetchFromList L ps offset).length) hfuel
        rw [paginateGo_succ, if_neg h0, if_neg hshort]
        refine ⟨?_, ?_, ?_, ?_⟩
        · show (fetchFromList L ps offset ::
              (paginateGo (fetchFromList L ps) ps fuel (offset + ps)
                (total + (fetchFromList L ps offset).length)).1).flatten =
            L.drop offset
          rw [List.flatten_cons, ih1, hdrop]
          show fetchFromList L ps offset ++ (L.drop offset).drop ps = L.drop offset
          unfold fetchFromList
          exact List.take_append_drop ps (L.drop offset)
        · show (paginateGo (fetchFromList L ps) ps fuel (offset + ps)
              (total + (fetchFromList L ps offset).length)).2 =
            total + (L.drop offset).length
          rw [ih2, hdrop]
          simp only [List.length_drop]
          omega
        · intro pg hpg
          rcases List.mem_cons.mp hpg with hpg | hpg
          · subst hpg
            exact ⟨fun hc => h0 (by rw [hc]; rfl), by omega⟩
          · exact ih3 pg hpg
        · show ∀ pg ∈ (fetchFromList L ps offset ::
              (paginateGo (fetchFromList L ps) ps fuel (offset + ps)
                (total + (fetchFromList L ps offset).length)).1).dropLast,
            pg.length = ps
          cases hrest : (paginateGo (fetchFromList L ps) ps fuel (offset + ps)
              (total + (fetchFromList L ps offset).length)).1 with
          | nil => simp
          | cons a t =>
            rw [List.dropLast_cons₂]
            intro pg hpg
            rcases List.mem_cons.mp hpg with hpg | hpg
            · subst hpg; exact hlen
            · rw [hrest] at ih4
              exact ih4 pg hpg

/-! ## Claim theorems -/

/-- C5: the loader invokes `create_index(index_name, mapping=...,
force=True)` (`loader.py:526`), but the client signature is
`create_index(self, index_name, id_field=None)`
(`opensearch_client.py:63`), so Python rejects the call with a
`TypeError` for an unexpected keyword argument before any index is
created — the clear/create step raises instead of completing.  The same
mismatch affects `bulk_upsert(..., query_name=...)`.  A call using only
the declared parameters binds fine, showing the model is not vacuous. -/
theorem c5_create_index_call_rejected :
    callBinds createIndexSig loaderCreateIndexCall =
        Except.error "TypeError: unexpected keyword argument" ∧
    callBinds bulkUpsertSig loaderBulkUpsertCall =
        Except.error "TypeError: unexpected keyword argument" ∧
    callBinds createIndexSig ⟨1, []⟩ = Except.ok () :=
  ⟨rfl, rfl, rfl⟩

/-- C10: `get_selected_indices` filters falsy entries before trimming, so
a selection consisting of one whitespace-only entry survives as `[""]`
instead of collapsing to `None`; the run then processes zero indices.
Unset, empty-list, and empty-string-only selections do collapse and
process every index. -/
theorem c10_selection_whitespace_zero_indices :
    get_selected_indices (some [" "]) = some [""] ∧
    selectIndices (some [" "]) ["idx_a", "idx_b"] = [] ∧
    selectIndices none ["idx_a", "idx_b"] = ["idx_a", "idx_b"] ∧
    selectIndices (some []) ["idx_a", "idx_b"] = ["idx_a", "idx_b"] ∧
    selectIndices (some ["", ""]) ["idx_a", "idx_b"] = ["idx_a", "idx_b"] :=
  ⟨rfl, rfl, rfl, rfl, rfl⟩

/-- C8: storing a document by upsert and then merging an update map for
the same ID stores exactly the shallow merge: the keys of the update win,
untouched original fields survive, and merging into an absent ID stores
the update map itself.  A singleton `bulk_upsert` with a truthy ID value
coincides with the single-document upsert. -/
theorem c8_upsert_then_merge (idx : Store) (docId : String) (doc upd : Doc) :
    get_document (merge_document (upsert_document idx docId doc) docId upd) docId
        = some (dictMerge doc upd) ∧
    (∀ k, pyGet (dictMerge doc upd) k = orO (pyGet upd k) (pyGet doc k)) ∧
    (get_document idx docId = none →
      get_document (merge_document idx docId upd) docId = some upd) ∧
    (∀ idFld v, pyGet doc idFld = some v → pyTruthy v = true →
      bulk_upsert idx [doc] idFld = upsert_document idx (pyStr v) doc) := by
  refine ⟨?_, ?_, ?_, ?_⟩
  · have h1 : get_document (upsert_document idx docId doc) docId = some doc := by
      unfold get_document upsert_document
      rw [pyGet_setAssoc]
      simp
    unfold merge_document
    rw [h1]
    unfold get_document upsert_document
    rw [pyGet_setAssoc]
    simp
  · intro k
    exact pyGet_dictMerge doc upd k
  · intro h
    unfold merge_document
    rw [h]
    unfold get_document upsert_document
    rw [pyGet_setAssoc]
    simp
  · intro idFld v hv ht
    simp [bulk_upsert, buildUpsertActions, hv, ht, applyUpsertActions]

/-- C8 witness at a concrete store and documents. -/
theorem c8_witness :
    get_document
        (merge_document
          (upsert_document [] "sku1"
            [("sku", Val.vstr "sku1"), ("color", Val.vstr "red")])
          "sku1" [("color", Val.vstr "blue"), ("size", Val.vint 4)])
        "sku1"
      = some [("sku", Val.vstr "sku1"), ("color", Val.vstr "blue"),
          ("size", Val.vint 4)] ∧
    get_document (merge_document [] "sku9" [("size", Val.vint 4)]) "sku9"
      = some [("size", Val.vint 4)] := by
  constructor
  · have h := (c8_upsert_then_merge [] "sku1"
      [("sku", Val.vstr "sku1"), ("color", Val.vstr "red")]
      [("color", Val.vstr "blue"), ("size", Val.vint 4)]).1
    rw [h]
    rfl
  · exact (c8_upsert_then_merge [] "sku9" [] [("size", Val.vint 4)]).2.2.1 rfl

/-- C7: `execute_query` fails before consulting the fetch oracle (the
flag stays `false`) whenever the query holds a whole-word mutating
keyword, lacks both MATCH and RETURN occurrences, or lacks a skip or
limit parameter token; otherwise both validations pass and the fetch is
executed. -/
theorem c7_query_validation_gates_fetch (q : String) (fetch : Unit → List Doc) :
    ((hasWriteKeyword q = true ∨ hasReadClause q = false ∨
        hasSkipParam q = false ∨ hasLimitParam q = false) →
      (execute_query fetch q).2 = false ∧
        isErr (execute_query fetch q).1 = true) ∧
    (hasWriteKeyword q = false → hasReadClause q = true →
      hasSkipParam q = true → hasLimitParam q = true →
      execute_query fetch q = (Except.ok (fetch ()), true)) := by
  constructor
  · intro h
    unfold execute_query validate_read_only validate_pagination_params
    rcases h with h | h | h | h <;>
      cases hw : hasWriteKeyword q <;> cases hr : hasReadClause q <;>
        cases hs : hasSkipParam q <;> cases hl : hasLimitParam q <;>
          simp_all [isErr]
  · intro hw hr hs hl
    unfold execute_query validate_read_only validate_pagination_params
    simp [hw, hr, hs, hl]

/-- C7 witness: a mutating query and a skip-less query are rejected with
no fetch; a clean paginated query reaches the fetch. -/
theorem c7_witness :
    (execute_query (fun _ => []) "CREATE (n) RETURN n").2 = false ∧
    (execute_query (fun _ => [])
        "MATCH (n) RETURN n LIMIT $limit").2 = false ∧
    execute_query (fun _ => [])
        "MATCH (n) RETURN n SKIP $skip LIMIT $limit" =
      (Except.ok [], true) := by
  refine ⟨?_, ?_, ?_⟩
  · exact ((c7_query_validation_gates_fetch "CREATE (n) RETURN n"
      (fun _ => [])).1 (Or.inl (by decide))).1
  · exact ((c7_query_validation_gates_fetch "MATCH (n) RETURN n LIMIT $limit"
      (fun _ => [])).1 (Or.inr (Or.inr (Or.inl (by decide))))).1
  · exact (c7_query_validation_gates_fetch
      "MATCH (n) RETURN n SKIP $skip LIMIT $limit" (fun _ => [])).2
      (by decide) (by decide) (by decide) (by decide)

/-- C3 counterexample: a grouped declaration where the leaf name `b` is
declared first as a top-level field and then as the nested property
`a.b` parses successfully — the cross-scope duplicate is not detected in
this declaration order, contradicting the claim that it always fails. -/
theorem c3_counterexample :
    parse_mapping [("keyword", ["b", "a.b"])] =
      Except.ok [("b", MappingEntry.leaf "keyword"),
        ("a", MappingEntry.objectOf [("b", "keyword")])] :=
  rfl

/-- C2: for page size at least 1 and enough fuel, pagination over the
full result list yields, in order, exactly the non-empty pages: they
concatenate back to the results, the reported total counts every row,
every yielded page is non-empty with at most `page_size` rows, every
non-final page has exactly `page_size` rows, and the pagination pair
always overrides caller variables. -/
theorem c2_pagination_pages (L : List Doc) (ps fuel : Nat)
    (hps : 1 ≤ ps) (hfuel : L.length < fuel) :
    (execute_paginated_query (fetchFromList L ps) ps fuel).1.flatten = L ∧
    (execute_paginated_query (fetchFromList L ps) ps fuel).2 = L.length ∧
    (∀ pg ∈ (execute_paginated_query (fetchFromList L ps) ps fuel).1,
        pg ≠ [] ∧ pg.length ≤ ps) ∧
    (∀ pg ∈ (execute_paginated_query (fetchFromList L ps) ps fuel).1.dropLast,
        pg.length = ps) ∧
    (∀ vars offset,
        pyGet (mergedParams vars offset (Int.ofNat ps)) "skip" = some offset ∧
        pyGet (mergedParams vars offset (Int.ofNat ps)) "limit" =
          some (Int.ofNat ps)) := by
  have h := paginateGo_spec L ps hps fuel 0 0 (by simpa using hfuel)
  simp only [List.drop_zero] at h
  obtain ⟨h1, h2, h3, h4⟩ := h
  exact ⟨h1, by simpa using h2, h3, h4,
    fun vars offset => mergedParams_pagination_wins vars offset (Int.ofNat ps)⟩

/-- C2 witness: 6 matching records with page size 3 yield two pages whose
rows concatenate to the results, and the reported total is 6. -/
theorem c2_witness :
    (execute_paginated_query
        (fetchFromList (List.replicate 6 [("id", Val.vint 1)]) 3) 3 10).2 = 6 ∧
    (execute_paginated_query
        (fetchFromList (List.replicate 6 [("id", Val.vint 1)]) 3) 3 10).1.length
      = 2 ∧
    (execute_paginated_query
        (fetchFromList (List.replicate 6 [("id", Val.vint 1)]) 3) 3 10).1.flatten
      = List.replicate 6 [("id", Val.vint 1)] := by
  have h := c2_pagination_pages (List.replicate 6 [("id", Val.vint 1)]) 3 10
    (by decide) (by decide)
  exact ⟨by simpa using h.2.1, rfl, h.1⟩

/-- One-step unfolding of the page loop. -/
theorem processPagesGo_cons (fails : Nat → Nat → Bool)
    (vf : List Doc → List String) (p : List Doc) (rest : List (List Doc))
    (seen total : Nat) (validated : Bool) :
    processPagesGo fails vf (p :: rest) seen total validated =
      if p.isEmpty then processPagesGo fails vf rest (seen + 1) total validated
      else if !validated && !(vf p).isEmpty then
        ([Ev.validateEv (seen + 1)], PagesOutcome.validationFailed (vf p))
      else if fails (seen + 1) 0 = false then
        (((if validated then [] else [Ev.validateEv (seen + 1)]) ++
            Ev.writeAttempt (seen + 1) 0 ::
            (processPagesGo fails vf rest (seen + 1) (total + p.length) true).1),
          (processPagesGo fails vf rest (seen + 1) (total + p.length) true).2)
      else if fails (seen + 1) 1 = false then
        (((if validated then [] else [Ev.validateEv (seen + 1)]) ++
            Ev.writeAttempt (seen + 1) 0 :: Ev.writeAttempt (seen + 1) 1 ::
            (processPagesGo fails vf rest (seen + 1) (total + p.length) true).1),
          (processPagesGo fails vf rest (seen + 1) (total + p.length) true).2)
      else
        ((if validated then [] else [Ev.validateEv (seen + 1)]) ++
            [Ev.writeAttempt (seen + 1) 0, Ev.writeAttempt (seen + 1) 1],
          PagesOutcome.writeFailed) :=
  rfl

/-- Once the first page has been validated, the loop emits no further
validation event. -/
theorem processPagesGo_validated_no_validate (fails : Nat → Nat → Bool)
    (vf : List Doc → List String) :
    ∀ (pages : List (List Doc)) (seen total : Nat),
      (processPagesGo fails vf pages seen total true).1.countP isValidateEv
        = 0 := by
  intro pages
  induction pages with
  | nil => intro seen total; simp [processPagesGo]
  | cons p rest ih =>
    intro seen total
    rw [processPagesGo_cons]
    by_cases hp : p.isEmpty
    · simp [hp, ih]
    · cases hf0 : fails (seen + 1) 0
      · simp [hp, hf0, List.countP_cons, isValidateEv, ih]
      · cases hf1 : fails (seen + 1) 1 <;>
          simp [hp, hf0, hf1, List.countP_cons, isValidateEv, ih]

/-- Update-query events are not validation events. -/
theorem countP_validate_updates (numUpd : Nat) :
    ((List.range numUpd).map Ev.updateQueryEv).countP isValidateEv = 0 := by
  rw [List.countP_eq_zero]
  intro ev hev
  obtain ⟨i, _, hi⟩ := List.mem_map.mp hev
  subst hi
  simp [isValidateEv]

/-- The optional trailing refresh is not a validation event. -/
theorem countP_validate_refresh (numUpd : Nat) :
    (if numUpd = 0 then ([] : List Ev) else [Ev.refreshEv]).countP isValidateEv
      = 0 := by
  by_cases hz : numUpd = 0 <;> simp [hz, isValidateEv]

/-- The run trace of one query index carries exactly the validation
events of its page loop. -/
theorem process_query_index_countP_validate (fails : Nat → Nat → Bool)
    (vf : List Doc → List String) (numUpd : Nat) (pages : List (List Doc)) :
    (process_query_index fails vf numUpd pages).1.countP isValidateEv =
      (processPagesGo fails vf pages 0 0 false).1.countP isValidateEv := by
  unfold process_query_index
  cases h : (processPagesGo fails vf pages 0 0 false).2 <;>
    simp [h, List.countP_append, List.countP_cons, countP_validate_updates,
      countP_validate_refresh, isValidateEv]

/-- C4: with the real field validator plugged into the page loop, a first
page whose collected field names include an unmapped one makes the run
return 0 with a single validation event and no write, refresh or
update-query event; the reported unmapped list is exactly the collected
names failing the mapping-membership check; and in every run the
validator fires exactly once, on the first page. -/
theorem c4_validation_once_and_skip (m : Mapping) (p : List Doc)
    (rest : List (List Doc)) (fails : Nat → Nat → Bool) (numUpd : Nat)
    (hp : p ≠ []) :
    (unmappedFields m p ≠ [] →
      process_query_index fails (validate_query_fields m) numUpd (p :: rest) =
        ([Ev.validateEv 1], Except.ok 0)) ∧
    (∀ f, f ∈ unmappedFields m p ↔
      f ∈ collectFields p ∧ isFieldMapped m f = false) ∧
    (process_query_index fails (validate_query_fields m) numUpd
        (p :: rest)).1.countP isValidateEv = 1 := by
  have hpe : p.isEmpty = false := by
    cases p with
    | nil => exact absurd rfl hp
    | cons a t => rfl
  have hvq : validate_query_fields m p = unmappedFields m p := by
    unfold validate_query_fields
    rw [hpe]
    rfl
  refine ⟨?_, ?_, ?_⟩
  · intro hun
    have hne : (validate_query_fields m p).isEmpty = false := by
      rw [hvq]
      cases hu : unmappedFields m p with
      | nil => exact absurd hu hun
      | cons a t => rfl
    unfold process_query_index
    rw [processPagesGo_cons, if_neg (by rw [hpe]; exact Bool.false_ne_true),
      if_pos (by rw [hne]; rfl)]
  · intro f
    unfold unmappedFields
    rw [List.mem_filter]
    simp
  · rw [process_query_index_countP_validate]
    rw [processPagesGo_cons, if_neg (by rw [hpe]; exact Bool.false_ne_true)]
    cases hne : (validate_query_fields m p).isEmpty with
    | false =>
      rw [if_pos (show (!false && !false) = true by rfl)]
      rfl
    | true =>
      rw [if_neg (by simp)]
      cases hf0 : fails (0 + 1) 0
      · simp [hf0, List.countP_cons, List.countP_append, isValidateEv,
          processPagesGo_validated_no_validate]
      · cases hf1 : fails (0 + 1) 1 <;>
          simp [hf0, hf1, List.countP_cons, List.countP_append, isValidateEv,
            processPagesGo_validated_no_validate]

/-- C4 witness: the mapping declares only `sku`; the first page has a
record with the extra field `color`, so the run is skipped with zero
writes and the report names exactly `color`. -/
theorem c4_witness :
    process_query_index (fun _ _ => false)
        (validate_query_fields [("sku", MappingEntry.leaf "keyword")]) 1
        [[[("sku", Val.vstr "a"), ("color", Val.vstr "red")]]] =
      ([Ev.validateEv 1], Except.ok 0) ∧
    ("color" ∈ unmappedFields [("sku", MappingEntry.leaf "keyword")]
        [[("sku", Val.vstr "a"), ("color", Val.vstr "red")]] ↔
      "color" ∈ collectFields [[("sku", Val.vstr "a"), ("color", Val.vstr "red")]] ∧
        isFieldMapped [("sku", MappingEntry.leaf "keyword")] "color" = false) := by
  have h := c4_validation_once_and_skip [("sku", MappingEntry.leaf "keyword")]
    [[("sku", Val.vstr "a"), ("color", Val.vstr "red")]] [] (fun _ _ => false) 1
    (by simp)
  exact ⟨h.1 (by decide), h.2.1 "color"⟩

/-- The builder `buildUpdateActions` distributes over list concatenation. -/
theorem buildUpdateActions_append (idFld : String) (l1 l2 : List Doc) :
    buildUpdateActions idFld (l1 ++ l2) =
      buildUpdateActions idFld l1 ++ buildUpdateActions idFld l2 := by
  induction l1 with
  | nil => simp [buildUpdateActions]
  | cons u rest ih =>
    cases hv : pyGet u idFld with
    | none => simp [buildUpdateActions, hv, ih]
    | some v =>
      cases ht : pyTruthy v with
      | false => simp [buildUpdateActions, hv, ht, ih]
      | true =>
        simp only [List.cons_append, buildUpdateActions, hv, ht, if_true]
        split <;> simp [ih]

/-- The builder `buildUpdateActions` over a flattened batch list. -/
theorem buildUpdateActions_flatten (idFld : String) (bs : List (List Doc)) :
    buildUpdateActions idFld bs.flatten =
      (bs.map (buildUpdateActions idFld)).flatten := by
  induction bs with
  | nil => rfl
  | cons b rest ih => simp [List.flatten_cons, buildUpdateActions_append, ih]

/-- Bounded induction behind the batch decomposition facts. -/
theorem splitBatches_spec_aux :
    ∀ (n : Nat) (updates : List Doc), updates.length ≤ n →
      (splitBatches updates).flatten = updates ∧
      ∀ b ∈ splitBatches updates, b ≠ [] ∧ b.length ≤ updateBatchSize := by
  intro n
  induction n with
  | zero =>
    intro updates h
    have : updates = [] := by
      cases updates with
      | nil => rfl
      | cons u rest => simp at h
    subst this
    simp [splitBatches]
  | succ n ih =>
    intro updates h
    cases updates with
    | nil => simp [splitBatches]
    | cons u rest =>
      have hlen : ((u :: rest).drop updateBatchSize).length ≤ n := by
        simp only [List.length_drop, List.length_cons, updateBatchSize]
        simp only [List.length_cons] at h
        omega
      obtain ⟨ih1, ih2⟩ := ih ((u :: rest).drop updateBatchSize) hlen
      rw [splitBatches]
      constructor
      · rw [List.flatten_cons, ih1]
        exact List.take_append_drop _ _
      · intro b hb
        rcases List.mem_cons.mp hb with hb | hb
        · subst hb
          constructor
          · simp [updateBatchSize]
          · simp only [List.length_take]
            omega
        · exact ih2 b hb

/-- The `updates[i:i + BATCH_SIZE]` decomposition: batches concatenate
to the update list, all non-empty, none above `BATCH_SIZE`. -/
theorem splitBatches_spec (updates : List Doc) :
    (splitBatches updates).flatten = updates ∧
    ∀ b ∈ splitBatches updates, b ≠ [] ∧ b.length ≤ updateBatchSize :=
  splitBatches_spec_aux updates.length updates (Nat.le_refl _)

/-- A bulk-update batch in which every action targets a missing document
leaves the store unchanged, succeeds on nothing and reports one
`document_missing_exception` item per action. -/
theorem applyUpdateActions_all_missing (idx : Store) :
    ∀ actions : List UpdateAction,
      (∀ a ∈ actions, pyGet idx a.actionId = none) →
      applyUpdateActions idx actions =
        (idx, 0, actions.map (fun _ => "document_missing_exception")) := by
  intro actions
  induction actions with
  | nil => intro _; simp [applyUpdateActions]
  | cons a rest ih =>
    intro h
    have ha := h a (List.mem_cons_self a rest)
    have hr := ih (fun b hb => h b (List.mem_cons_of_mem a hb))
    simp [applyUpdateActions, ha, hr]

/-- The batch step `_process_update_batch` counts a batch of all-missing targets
entirely as skipped missing documents, with zero other errors and an
unchanged store. -/
theorem process_update_batch_all_missing (idx : Store) (batch : List Doc)
    (idFld : String)
    (h : ∀ a ∈ buildUpdateActions idFld batch, pyGet idx a.actionId = none) :
    process_update_batch idx batch idFld =
      (idx, (buildUpdateActions idFld batch).length, 0) := by
  unfold process_update_batch
  cases hae : (buildUpdateActions idFld batch).isEmpty with
  | true =>
    have hnil : buildUpdateActions idFld batch = [] := by
      cases hb : buildUpdateActions idFld batch with
      | nil => rfl
      | cons x xs => rw [hb] at hae; cases hae
    simp [hae, hnil]
  | false =>
    rw [if_neg (by rw [hae]; exact Bool.false_ne_true)]
    rw [applyUpdateActions_all_missing idx _ h]
    have hrep : ∀ n : Nat,
        (List.replicate n "document_missing_exception").countP isMissingDocError
          = n := by
      intro n
      induction n with
      | zero => rfl
      | succ k ihk =>
        rw [List.replicate_succ, List.countP_cons, ihk]
        norm_num
        decide
    simp [hrep]

/-- The batch fold of `bulk_update` over all-missing targets. -/
theorem bulk_update_fold_all_missing (idx : Store) (idFld : String) :
    ∀ (bs : List (List Doc)) (m0 o0 : Nat),
      (∀ b ∈ bs, ∀ a ∈ buildUpdateActions idFld b, pyGet idx a.actionId = none) →
      bs.foldl
        (fun acc batch =>
          let r := process_update_batch acc.1 batch idFld
          (r.1, acc.2.1 + r.2.1, acc.2.2 + r.2.2))
        (idx, m0, o0) =
      (idx, m0 + (bs.map (fun b => (buildUpdateActions idFld b).length)).sum, o0) := by
  intro bs
  induction bs with
  | nil => intro m0 o0 _; simp
  | cons b rest ih =>
    intro m0 o0 h
    rw [List.foldl_cons]
    have hb := process_update_batch_all_missing idx b idFld
      (h b (List.mem_cons_self b rest))
    simp only [hb]
    rw [ih (m0 + (buildUpdateActions idFld b).length) (o0 + 0)
      (fun c hc => h c (List.mem_cons_of_mem b hc))]
    simp [Nat.add_assoc]

/-- One-step unfolding of the update-action builder. -/
theorem buildUpdateActions_cons (idFld : String) (u : Doc) (rest : List Doc) :
    buildUpdateActions idFld (u :: rest) =
      match pyGet u idFld with
      | none => buildUpdateActions idFld rest
      | some v =>
        if pyTruthy v then
          if (u.filter (fun kv => decide (kv.1 ≠ idFld))).isEmpty then
            buildUpdateActions idFld rest
          else
            UpdateAction.mk (pyStr v)
                (u.filter (fun kv => decide (kv.1 ≠ idFld))) ::
              buildUpdateActions idFld rest
        else buildUpdateActions idFld rest :=
  rfl

/-- Every action `bulk_update` builds has the `id_field` binding
stripped from its body. -/
theorem buildUpdateActions_strips (idFld : String) :
    ∀ updates : List Doc, ∀ a ∈ buildUpdateActions idFld updates,
      pyGet a.updateDoc idFld = none := by
  intro updates
  induction updates with
  | nil => intro a ha; cases ha
  | cons u rest ih =>
    intro a ha
    rw [buildUpdateActions_cons] at ha
    cases hv : pyGet u idFld with
    | none =>
      simp only [hv] at ha
      exact ih a ha
    | some v =>
      simp only [hv] at ha
      cases ht : pyTruthy v with
      | false =>
        rw [if_neg (by rw [ht]; exact Bool.false_ne_true)] at ha
        exact ih a ha
      | true =>
        rw [if_pos ht] at ha
        cases hb : (u.filter (fun kv => decide (kv.1 ≠ idFld))).isEmpty with
        | true =>
          rw [if_pos hb] at ha
          exact ih a ha
        | false =>
          rw [if_neg (by rw [hb]; exact Bool.false_ne_true)] at ha
          rcases List.mem_cons.mp ha with ha | ha
          · subst ha
            exact pyGet_filter_ne u idFld
          · exact ih a ha

/-- C6: bulk update processes its list in batches of at most 5000 that
concatenate back to the input; the `id_field` binding is stripped from
every built action body; records missing a (truthy) `id_field` value or
left with an empty body contribute no action; and when every built
action targets a document absent from the index, the whole call returns
with the store unchanged, every action counted as a skipped missing
document and zero other failures — no exception path exists. -/
theorem c6_bulk_update_spec (idx : Store) (updates : List Doc) (idFld : String) :
    (splitBatches updates).flatten = updates ∧
    (∀ b ∈ splitBatches updates, b ≠ [] ∧ b.length ≤ updateBatchSize) ∧
    (∀ a ∈ buildUpdateActions idFld updates, pyGet a.updateDoc idFld = none) ∧
    (∀ u rest, pyGet u idFld = none →
      buildUpdateActions idFld (u :: rest) = buildUpdateActions idFld rest) ∧
    (∀ u rest v, pyGet u idFld = some v → pyTruthy v = true →
      (u.filter (fun kv => decide (kv.1 ≠ idFld))).isEmpty = true →
      buildUpdateActions idFld (u :: rest) = buildUpdateActions idFld rest) ∧
    ((∀ a ∈ buildUpdateActions idFld updates, pyGet idx a.actionId = none) →
      bulk_update idx updates idFld =
        (idx, (buildUpdateActions idFld updates).length, 0)) := by
  obtain ⟨hs1, hs2⟩ := splitBatches_spec updates
  refine ⟨hs1, hs2, buildUpdateActions_strips idFld updates, ?_, ?_, ?_⟩
  · intro u rest h
    rw [buildUpdateActions_cons, h]
  · intro u rest v hv ht hb
    rw [buildUpdateActions_cons, hv]
    show (if pyTruthy v = true then _ else _) = _
    rw [if_pos ht, if_pos hb]
  · intro h
    have hb : ∀ b ∈ splitBatches updates,
        ∀ a ∈ buildUpdateActions idFld b, pyGet idx a.actionId = none := by
      intro b hbmem a ha
      apply h
      rw [← hs1, buildUpdateActions_flatten]
      exact List.mem_flatten.mpr
        ⟨buildUpdateActions idFld b, List.mem_map.mpr ⟨b, hbmem, rfl⟩, ha⟩
    unfold bulk_update
    rw [bulk_update_fold_all_missing idx idFld (splitBatches updates) 0 0 hb]
    have hlen : (buildUpdateActions idFld updates).length =
        ((splitBatches updates).map
          (fun b => (buildUpdateActions idFld b).length)).sum := by
      conv_lhs => rw [← hs1]
      rw [buildUpdateActions_flatten, List.length_flatten]
      rw [List.map_map]
      rfl
    rw [hlen]
    simp

/-- C6 witness: one update whose ID is absent from the index is counted
as one skipped missing document, not a failure, with the store
unchanged; its built action carries no `id` binding. -/
theorem c6_witness :
    bulk_update [("d1", [("f", Val.vint 1)])]
        [[("id", Val.vstr "m1"), ("g", Val.vint 2)]] "id" =
      ([("d1", [("f", Val.vint 1)])], 1, 0) ∧
    (∀ a ∈ buildUpdateActions "id" [[("id", Val.vstr "m1"), ("g", Val.vint 2)]],
      pyGet a.updateDoc "id" = none) := by
  have h := c6_bulk_update_spec [("d1", [("f", Val.vint 1)])]
    [[("id", Val.vstr "m1"), ("g", Val.vint 2)]] "id"
  refine ⟨?_, h.2.2.1⟩
  have hm : ∀ a ∈ buildUpdateActions "id"
      [[("id", Val.vstr "m1"), ("g", Val.vint 2)]],
      pyGet [("d1", [("f", Val.vint 1)])] a.actionId = none := by
    intro a ha
    rcases List.mem_singleton.mp ha with ha
    subst ha
    rfl
  exact h.2.2.2.2.2 hm

/-- Bind of a successful client result. -/
theorem exc_bind_ok {α β : Type} (a : α) (f : α → Except String β) :
    (Except.ok a >>= f) = f a :=
  rfl

/-- Bind of a failed client result short-circuits. -/
theorem exc_bind_err {α β : Type} (e : String) (f : α → Except String β) :
    ((Except.error e : Except String α) >>= f) = Except.error e :=
  rfl

/-- Bind of a pure value. -/
theorem exc_pure_bind {α β : Type} (a : α) (f : α → Except String β) :
    ((pure a : Except String α) >>= f) = f a :=
  rfl

/-- Unfolding: `parse_mapping` on a non-empty declaration is the group fold, the
nested-object closing fold and the emptiness check. -/
theorem parse_mapping_cons (g : String × List String)
    (rest : List (String × List String)) :
    parse_mapping (g :: rest) =
      ((g :: rest).foldlM (fun s gg => processGroup s gg.1 gg.2)
          (PMState.mk [] []) >>= fun st =>
        finalizeMapping st >>= fun m =>
          if m.isEmpty then
            Except.error "InvalidMapping: mapping must contain at least one field"
          else Except.ok m) :=
  rfl

/-- Unfolding: `processGroup` with a valid type is the field fold. -/
theorem processGroup_valid (st : PMState) (t : String) (fs : List String)
    (ht : valid_types.contains t = true) :
    processGroup st t fs = fs.foldlM (fun s f => processField s t f) st := by
  unfold processGroup
  rw [if_neg (by rw [ht]; decide)]

/-- A clean dot-free field name with no duplicate lands in the top-level
result. -/
theorem processField_clean_top (st : PMState) (t f : String)
    (hf : pyStrip f = f) (hne : f ≠ "") (hsp : pySplitDot f = [f])
    (hdup : (st.result.any (fun kv => kv.1 = f) ||
      st.nested.any (fun n => n.2.any (fun q => q.1 = f))) = false) :
    processField st t f =
      Except.ok (PMState.mk (st.result ++ [(f, t)]) st.nested) := by
  unfold processField
  rw [hf, if_neg hne, if_neg (by rw [hdup]; exact Bool.false_ne_true), hsp]

/-- A clean single-dot field name with no duplicate is routed to its
nested parent. -/
theorem processField_clean_nested (st : PMState) (t p x : String)
    (hft : pyStrip (p ++ "." ++ x) = p ++ "." ++ x)
    (hfne : p ++ "." ++ x ≠ "")
    (hfs : pySplitDot (p ++ "." ++ x) = [p, x])
    (hdup : (st.result.any (fun kv => kv.1 = p ++ "." ++ x) ||
      st.nested.any (fun n => n.2.any (fun q => q.1 = p ++ "." ++ x))) = false) :
    processField st t (p ++ "." ++ x) =
      match pyGet st.nested p with
      | some props =>
        if props.any (fun q => q.1 = x) then
          Except.error "InvalidMapping: duplicate nested property"
        else
          Except.ok (PMState.mk st.result (setAssoc st.nested p (props ++ [(x, t)])))
      | none =>
        Except.ok (PMState.mk st.result (st.nested ++ [(p, [(x, t)])])) := by
  unfold processField
  rw [hft, if_neg hfne, if_neg (by rw [hdup]; exact Bool.false_ne_true), hfs]

/-- The duplicate check fires on any field name already declared at top
level or under any nested parent. -/
theorem processField_dup (st : PMState) (t f : String)
    (hf : pyStrip f = f) (hne : f ≠ "")
    (hdup : (st.result.any (fun kv => kv.1 = f) ||
      st.nested.any (fun n => n.2.any (fun q => q.1 = f))) = true) :
    processField st t f =
      Except.error "InvalidMapping: duplicate field definition" := by
  unfold processField
  rw [hf, if_neg hne, if_pos hdup]

/-- C3 (amended): a leaf name declared twice at top level or twice under
the same nested parent always fails with `InvalidMapping`; a cross-scope
duplicate (nested property and top-level field with the same leaf name)
fails only when the nested declaration comes first — when the top-level
field is declared first, parse succeeds.  Hypotheses state that the two
names are clean: already stripped, non-blank, `x` dot-free and the
dotted name splitting into parent `p` and leaf `x`. -/
theorem c3_duplicate_field_detection (t1 t2 p x : String)
    (ht1 : valid_types.contains t1 = true)
    (ht2 : valid_types.contains t2 = true)
    (hxt : pyStrip x = x) (hxne : x ≠ "")
    (hxs : pySplitDot x = [x])
    (hft : pyStrip (p ++ "." ++ x) = p ++ "." ++ x)
    (hfs : pySplitDot (p ++ "." ++ x) = [p, x])
    (hpx : p ≠ x) :
    isErr (parse_mapping [(t1, [x, x])]) = true ∧
    isErr (parse_mapping [(t1, [p ++ "." ++ x, p ++ "." ++ x])]) = true ∧
    isErr (parse_mapping [(t1, [p ++ "." ++ x]), (t2, [x])]) = true ∧
    isErr (parse_mapping [(t1, [x]), (t2, [p ++ "." ++ x])]) = false := by
  have hfne : p ++ "." ++ x ≠ "" := by
    intro hc
    rw [hc] at hfs
    have h0 : pySplitDot "" = [""] := rfl
    rw [h0] at hfs
    simp at hfs
  have hnx : x ≠ p ++ "." ++ x := by
    intro hc
    have hlen := congrArg String.length hc
    rw [String.length_append, String.length_append] at hlen
    have hdot : String.length "." = 1 := rfl
    rw [hdot] at hlen
    omega
  have hxp : x ≠ p := fun h => hpx h.symm
  -- step equations over the concrete parser states
  have e1 : processField (PMState.mk [] []) t1 x =
      Except.ok (PMState.mk [(x, t1)] []) :=
    processField_clean_top (PMState.mk [] []) t1 x hxt hxne hxs rfl
  have e1b : processField (PMState.mk [] []) t2 x =
      Except.ok (PMState.mk [(x, t2)] []) :=
    processField_clean_top (PMState.mk [] []) t2 x hxt hxne hxs rfl
  have e2 : processField (PMState.mk [(x, t1)] []) t1 x =
      Except.error "InvalidMapping: duplicate field definition" :=
    processField_dup (PMState.mk [(x, t1)] []) t1 x hxt hxne (by simp)
  have e3 : processField (PMState.mk [] []) t1 (p ++ "." ++ x) =
      Except.ok (PMState.mk [] [(p, [(x, t1)])]) := by
    rw [processField_clean_nested (PMState.mk [] []) t1 p x hft hfne hfs rfl]
    rfl
  have e4 : processField (PMState.mk [] [(p, [(x, t1)])]) t1 (p ++ "." ++ x) =
      Except.error "InvalidMapping: duplicate nested property" := by
    rw [processField_clean_nested (PMState.mk [] [(p, [(x, t1)])]) t1 p x hft
      hfne hfs (by simp [hnx])]
    simp [pyGet]
  have e5 : processField (PMState.mk [] [(p, [(x, t1)])]) t2 x =
      Except.error "InvalidMapping: duplicate field definition" :=
    processField_dup (PMState.mk [] [(p, [(x, t1)])]) t2 x hxt hxne (by simp)
  have e6 : processField (PMState.mk [(x, t1)] []) t2 (p ++ "." ++ x) =
      Except.ok (PMState.mk [(x, t1)] [(p, [(x, t2)])]) := by
    rw [processField_clean_nested (PMState.mk [(x, t1)] []) t2 p x hft hfne hfs
      (by simp [hnx])]
    rfl
  have f1 : finalizeMapping (PMState.mk [(x, t1)] [(p, [(x, t2)])]) =
      Except.ok [(x, MappingEntry.leaf t1), (p, MappingEntry.objectOf [(x, t2)])] := by
    unfold finalizeMapping
    simp only [List.foldlM]
    rw [if_neg (by simp [hxp])]
    rfl
  refine ⟨?_, ?_, ?_, ?_⟩
  · rw [parse_mapping_cons]
    simp only [List.foldlM, processGroup_valid _ t1 [x, x] ht1, e1, e2,
      exc_bind_ok, exc_bind_err, exc_pure_bind]
    rfl
  · rw [parse_mapping_cons]
    simp only [List.foldlM,
      processGroup_valid _ t1 [p ++ "." ++ x, p ++ "." ++ x] ht1, e3, e4,
      exc_bind_ok, exc_bind_err, exc_pure_bind]
    rfl
  · rw [parse_mapping_cons]
    simp only [List.foldlM, processGroup_valid _ t1 [p ++ "." ++ x] ht1,
      processGroup_valid _ t2 [x] ht2, e3, e5, exc_bind_ok, exc_bind_err, exc_pure_bind]
    rfl
  · rw [parse_mapping_cons]
    simp only [List.foldlM, processGroup_valid _ t1 [x] ht1,
      processGroup_valid _ t2 [p ++ "." ++ x] ht2, e1, e6, f1,
      exc_bind_ok, exc_bind_err, exc_pure_bind]
    rfl

/-- C3 witness at concrete names: `b` twice fails, `a.b` twice fails,
`a.b` before `b` fails, `b` before `a.b` parses. -/
theorem c3_witness :
    isErr (parse_mapping [("keyword", ["b", "b"])]) = true ∧
    isErr (parse_mapping [("keyword", ["a.b", "a.b"])]) = true ∧
    isErr (parse_mapping [("keyword", ["a.b"]), ("text", ["b"])]) = true ∧
    isErr (parse_mapping [("keyword", ["b"]), ("text", ["a.b"])]) = false := by
  have h := c3_duplicate_field_detection "keyword" "text" "a" "b"
    rfl rfl rfl (by decide) rfl rfl rfl (by decide)
  exact ⟨h.1, h.2.1, h.2.2.1, h.2.2.2⟩

/-- Abort behaviour of the page loop: when the pages before position
`pre.length` each succeed on some attempt, and the page at that position
fails both the first attempt and the single retry, the loop ends in
`writeFailed` having attempted that page exactly twice (attempts 0 and
1), attempted no later page and no attempt beyond the single retry, and
its whole trace consists of validation and write-attempt events only. -/
theorem processPagesGo_abort (fails : Nat → Nat → Bool)
    (vf : List Doc → List String) (hvf : ∀ q, vf q = []) :
    ∀ (pre : List (List Doc)) (pk : List Doc) (post : List (List Doc))
      (k0 total : Nat) (validated : Bool),
      (∀ pg ∈ pre, pg ≠ []) → pk ≠ [] →
      (∀ j, j < pre.length →
        fails (k0 + j + 1) 0 = false ∨ fails (k0 + j + 1) 1 = false) →
      fails (k0 + pre.length + 1) 0 = true →
      fails (k0 + pre.length + 1) 1 = true →
      (processPagesGo fails vf (pre ++ pk :: post) k0 total validated).2 =
          PagesOutcome.writeFailed ∧
      (processPagesGo fails vf (pre ++ pk :: post) k0 total validated).1.count
          (Ev.writeAttempt (k0 + pre.length + 1) 0) = 1 ∧
      (processPagesGo fails vf (pre ++ pk :: post) k0 total validated).1.count
          (Ev.writeAttempt (k0 + pre.length + 1) 1) = 1 ∧
      (∀ n a, Ev.writeAttempt n a ∈
          (processPagesGo fails vf (pre ++ pk :: post) k0 total validated).1 →
          n ≤ k0 + pre.length + 1 ∧ a ≤ 1) ∧
      (∀ ev ∈ (processPagesGo fails vf (pre ++ pk :: post) k0 total validated).1,
          isValidateEv ev = true ∨ ∃ n a, ev = Ev.writeAttempt n a) := by
  intro pre
  induction pre with
  | nil =>
    intro pk post k0 total validated hpre hpk hok hf0 hf1
    simp only [List.length_nil, Nat.add_zero] at hf0 hf1 ⊢
    have hpke : pk.isEmpty = false := by
      cases pk with
      | nil => exact absurd rfl hpk
      | cons a t => rfl
    rw [List.nil_append, processPagesGo_cons,
      if_neg (by rw [hpke]; exact Bool.false_ne_true),
      if_neg (by rw [hvf pk]; simp),
      if_neg (by rw [hf0]; exact fun hc => Bool.noConfusion hc),
      if_neg (by rw [hf1]; exact fun hc => Bool.noConfusion hc)]
    cases validated <;>
      refine ⟨rfl, ?_, ?_, ?_, ?_⟩ <;>
      simp [List.count_append, List.count_cons, isValidateEv] <;>
      intro n a h <;>
      rcases h with ⟨hn, ha⟩ | ⟨hn, ha⟩ <;> omega
  | cons q pre' ih =>
    intro pk post k0 total validated hpre hpk hok hf0 hf1
    have hq : q ≠ [] := hpre q (List.mem_cons_self q pre')
    have hqe : q.isEmpty = false := by
      cases q with
      | nil => exact absurd rfl hq
      | cons a t => rfl
    have hT : k0 + (q :: pre').length + 1 = k0 + 1 + pre'.length + 1 := by
      simp only [List.length_cons]
      omega
    have hf0' : fails (k0 + 1 + pre'.length + 1) 0 = true := by rw [← hT]; exact hf0
    have hf1' : fails (k0 + 1 + pre'.length + 1) 1 = true := by rw [← hT]; exact hf1
    have hok' : ∀ j, j < pre'.length →
        fails (k0 + 1 + j + 1) 0 = false ∨ fails (k0 + 1 + j + 1) 1 = false := by
      intro j hj
      have h := hok (j + 1) (by simp only [List.length_cons]; omega)
      rw [show k0 + (j + 1) + 1 = k0 + 1 + j + 1 by omega] at h
      exact h
    obtain ⟨iha, ihb, ihc, ihd, ihe⟩ := ih pk post (k0 + 1) (total + q.length) true
      (fun pg hpg => hpre pg (List.mem_cons_of_mem q hpg)) hpk hok' hf0' hf1'
    have hTne : ¬ (k0 + (q :: pre').length + 1 = k0 + 1) := by
      simp only [List.length_cons]
      omega
    have hT2 : k0 + (pre'.length + 1) + 1 = k0 + 1 + pre'.length + 1 := by omega
    have hTne2 : ¬ (k0 + (pre'.length + 1) + 1 = k0 + 1) := by omega
    rw [List.cons_append, processPagesGo_cons,
      if_neg (by rw [hqe]; exact Bool.false_ne_true),
      if_neg (by rw [hvf q]; simp)]
    by_cases hA : fails (k0 + 1) 0 = false
    · rw [if_pos hA]
      refine ⟨iha, ?_, ?_, ?_, ?_⟩
      · cases validated <;>
        · simp [List.count_append, List.count_cons, hTne2]
          rw [hT2]
          exact ihb
      · cases validated <;>
        · simp [List.count_append, List.count_cons, hTne2]
          rw [hT2]
          exact ihc
      · intro n a h
        rw [hT]
        cases validated <;> simp at h <;>
        · rcases h with h | h
          · rcases h with ⟨hn, ha⟩
            omega
          · have := ihd n a h
            omega
      · intro ev hev
        cases validated with
        | false =>
          simp at hev
          rcases hev with hev | hev | hev
          · rw [hev]; exact Or.inl rfl
          · exact Or.inr ⟨_, _, hev⟩
          · exact ihe ev hev
        | true =>
          simp at hev
          rcases hev with hev | hev
          · exact Or.inr ⟨_, _, hev⟩
          · exact ihe ev hev
    · have hA' : fails (k0 + 1) 0 = true := by
        cases hfa : fails (k0 + 1) 0 with
        | false => exact absurd hfa hA
        | true => rfl
      have hB : fails (k0 + 1) 1 = false := by
        rcases hok 0 (by simp only [List.length_cons]; omega) with h | h
        · rw [Nat.add_zero] at h
          exact absurd h hA
        · rw [Nat.add_zero] at h
          exact h
      rw [if_neg (by rw [hA']; exact fun hc => Bool.noConfusion hc),
        if_pos hB]
      refine ⟨iha, ?_, ?_, ?_, ?_⟩
      · cases validated <;>
        · simp [List.count_append, List.count_cons, hTne2]
          rw [hT2]
          exact ihb
      · cases validated <;>
        · simp [List.count_append, List.count_cons, hTne2]
          rw [hT2]
          exact ihc
      · intro n a h
        rw [hT]
        cases validated <;> simp at h <;>
        · rcases h with h | h | h
          · rcases h with ⟨hn, ha⟩
            omega
          · rcases h with ⟨hn, ha⟩
            omega
          · have := ihd n a h
            omega
      · intro ev hev
        cases validated with
        | false =>
          simp at hev
          rcases hev with hev | hev | hev | hev
          · rw [hev]; exact Or.inl rfl
          · exact Or.inr ⟨_, _, hev⟩
          · exact Or.inr ⟨_, _, hev⟩
          · exact ihe ev hev
        | true =>
          simp at hev
          rcases hev with hev | hev | hev
          · exact Or.inr ⟨_, _, hev⟩
          · exact Or.inr ⟨_, _, hev⟩
          · exact ihe ev hev

/-- The index loop of `load` records one summary row per index: an
erroring index yields an `ERROR` row carrying its elapsed duration, and
no index is omitted. -/
theorem loadStatsGo_spec (durs : Nat → Nat) :
    ∀ (results : List (String × Except String Nat)) (i : Nat),
      (loadStatsGo durs i results).length = results.length ∧
      ∀ m n e, results[m]? = some (n, Except.error e) →
        (loadStatsGo durs i results)[m]? =
          some (IndexStat.mk n none (durs (i + m)) true) := by
  intro results
  induction results with
  | nil =>
    intro i
    refine ⟨rfl, ?_⟩
    intro m n e h
    simp at h
  | cons r rest ih =>
    intro i
    obtain ⟨ih1, ih2⟩ := ih (i + 1)
    refine ⟨by simp [loadStatsGo, ih1], ?_⟩
    intro m n e h
    cases r with
    | mk rn rr =>
      cases m with
      | zero =>
        simp at h
        obtain ⟨hn, hr⟩ := h
        subst hn
        subst hr
        simp [loadStatsGo]
      | succ m' =>
        simp only [List.getElem?_cons_succ] at h
        have := ih2 m' n e h
        rw [show i + 1 + m' = i + (m' + 1) by omega] at this
        simpa [loadStatsGo] using this

/-- C1: when every page before position `pre.length` of the initial
query succeeds on its first attempt or its retry, and the page at that
position fails both, the index run fails: exactly one write and one
retry are attempted for that page, no later page and no third attempt is
tried, no update query and no refresh runs, the exception propagates as
the run outcome — and the `load` loop catching it records the index as
an `ERROR` row carrying its elapsed duration while keeping one summary
row per index, so the run continues with the remaining indices. -/
theorem c1_write_failure_aborts_index (fails : Nat → Nat → Bool)
    (vf : List Doc → List String) (hvf : ∀ q, vf q = [])
    (pre : List (List Doc)) (pk : List Doc) (post : List (List Doc))
    (numUpd : Nat)
    (hpre : ∀ pg ∈ pre, pg ≠ []) (hpk : pk ≠ [])
    (hok : ∀ j, j < pre.length →
      fails (j + 1) 0 = false ∨ fails (j + 1) 1 = false)
    (hf0 : fails (pre.length + 1) 0 = true)
    (hf1 : fails (pre.length + 1) 1 = true) :
    (process_query_index fails vf numUpd (pre ++ pk :: post)).2 =
        Except.error "WriteFailure" ∧
    (process_query_index fails vf numUpd (pre ++ pk :: post)).1.count
        (Ev.writeAttempt (pre.length + 1) 0) = 1 ∧
    (process_query_index fails vf numUpd (pre ++ pk :: post)).1.count
        (Ev.writeAttempt (pre.length + 1) 1) = 1 ∧
    (∀ n a, Ev.writeAttempt n a ∈
        (process_query_index fails vf numUpd (pre ++ pk :: post)).1 →
        n ≤ pre.length + 1 ∧ a ≤ 1) ∧
    (∀ i, Ev.updateQueryEv i ∉
        (process_query_index fails vf numUpd (pre ++ pk :: post)).1) ∧
    Ev.refreshEv ∉ (process_query_index fails vf numUpd (pre ++ pk :: post)).1 ∧
    (∀ (durs : Nat → Nat) (results : List (String × Except String Nat))
        (m : Nat) (n e : String), results[m]? = some (n, Except.error e) →
        (loadStats durs results)[m]? =
          some (IndexStat.mk n none (durs m) true) ∧
        (loadStats durs results).length = results.length) := by
  have hok0 : ∀ j, j < pre.length →
      fails (0 + j + 1) 0 = false ∨ fails (0 + j + 1) 1 = false := by
    intro j hj
    rw [Nat.zero_add]
    exact hok j hj
  have hf00 : fails (0 + pre.length + 1) 0 = true := by
    rw [Nat.zero_add]
    exact hf0
  have hf10 : fails (0 + pre.length + 1) 1 = true := by
    rw [Nat.zero_add]
    exact hf1
  obtain ⟨ha, hb, hc, hd, he⟩ := processPagesGo_abort fails vf hvf pre pk post
    0 0 false hpre hpk hok0 hf00 hf10
  rw [Nat.zero_add] at hb hc hd
  have htrace : (process_query_index fails vf numUpd (pre ++ pk :: post)).1 =
      (processPagesGo fails vf (pre ++ pk :: post) 0 0 false).1 := by
    simp only [process_query_index, ha]
  have hres : (process_query_index fails vf numUpd (pre ++ pk :: post)).2 =
      Except.error "WriteFailure" := by
    simp only [process_query_index, ha]
  refine ⟨hres, ?_, ?_, ?_, ?_, ?_, ?_⟩
  · rw [htrace]; exact hb
  · rw [htrace]; exact hc
  · rw [htrace]; exact hd
  · intro i hmem
    rw [htrace] at hmem
    rcases he _ hmem with h | ⟨n, a, h⟩
    · cases h
    · cases h
  · intro hmem
    rw [htrace] at hmem
    rcases he _ hmem with h | ⟨n, a, h⟩
    · cases h
    · cases h
  · intro durs results m n e h
    obtain ⟨h1, h2⟩ := loadStatsGo_spec durs results 0
    refine ⟨?_, h1⟩
    have := h2 m n e h
    rw [Nat.zero_add] at this
    exact this

/-- C1 witness: three one-record pages; page 2 fails the write and the
retry, page 1 succeeds.  The run errors with exactly one retry on page
2, page 3 untouched, no update query and no refresh, and a concrete
summary keeps the erroring index as an `ERROR` row between its
neighbours. -/
theorem c1_witness :
    (process_query_index (fun n _ => n == 2) (fun _ => ([] : List String)) 2
        [[[("id", Val.vint 1)]], [[("id", Val.vint 2)]], [[("id", Val.vint 3)]]]).2
      = Except.error "WriteFailure" ∧
    (process_query_index (fun n _ => n == 2) (fun _ => ([] : List String)) 2
        [[[("id", Val.vint 1)]], [[("id", Val.vint 2)]], [[("id", Val.vint 3)]]]).1.count
        (Ev.writeAttempt 2 1) = 1 ∧
    Ev.updateQueryEv 0 ∉
      (process_query_index (fun n _ => n == 2) (fun _ => ([] : List String)) 2
        [[[("id", Val.vint 1)]], [[("id", Val.vint 2)]], [[("id", Val.vint 3)]]]).1 ∧
    (loadStats (fun _ => 7)
        [("a", Except.ok 5), ("b", Except.error "WriteFailure"),
          ("c", Except.ok 1)])[1]? =
      some (IndexStat.mk "b" none 7 true) ∧
    (loadStats (fun _ => 7)
        [("a", Except.ok 5), ("b", Except.error "WriteFailure"),
          ("c", Except.ok 1)]).length = 3 := by
  have h := c1_write_failure_aborts_index (fun n _ => n == 2)
    (fun _ => ([] : List String)) (fun _ => rfl)
    [[[("id", Val.vint 1)]]] [[("id", Val.vint 2)]] [[[("id", Val.vint 3)]]] 2
    (by intro pg hpg; simp at hpg; subst hpg; simp)
    (by simp)
    (by intro j hj; simp at hj; subst hj; left; rfl)
    rfl rfl
  have h7 := h.2.2.2.2.2.2 (fun _ => 7)
    [("a", Except.ok 5), ("b", Except.error "WriteFailure"), ("c", Except.ok 1)]
    1 "b" "WriteFailure" rfl
  exact ⟨h.1, h.2.2.1, h.2.2.2.2.1 0, h7.1, h7.2⟩

/-- C9: the claim states that a processed about-file or model index
builds its document set in memory and writes it with one bulk-upsert
call before refreshing the index.  Evaluating the auxiliary loaders
with each client call bound against the client class actually present
in src/ shows no auxiliary index can complete that sequence: at the
default configuration the create call raises a `TypeError` for its
unexpected `mapping` keyword before any write; with creation disabled,
the model write itself raises a `TypeError` for its `query_name`
keyword, so no bulk-upsert is performed; and the about-file path —
whose writes are per-record single-document upserts, never a
bulk-upsert call — raises an `AttributeError` at the final refresh
because the client defines no `refresh_index` method. -/
theorem c9_auxiliary_paths_raise :
    load_model true true "m" [[("id", Val.vstr "n1")]] =
      ([OsOp.deleteOp "m"],
        Except.error "TypeError: unexpected keyword argument") ∧
    load_model false false "m" [[("id", Val.vstr "n1")]] =
      ([], Except.error "TypeError: unexpected keyword argument") ∧
    load_about_page false true "about" [[("page", Val.vint 1)]] =
      ([], Except.error "TypeError: unexpected keyword argument") ∧
    load_about_page false false "about"
        [[("page", Val.vint 1)], [("page", Val.vint 2)]] =
      ([OsOp.upsertDocOp "about" "page1", OsOp.upsertDocOp "about" "page2"],
        Except.error "AttributeError: no such client method") ∧
    (load_about_page false false "about"
        [[("page", Val.vint 1)], [("page", Val.vint 2)]]).1.countP
        isBulkUpsertOp = 0 ∧
    (load_about_page false false "about"
        [[("page", Val.vint 1)], [("page", Val.vint 2)]]).1.countP
        isUpsertDocOp = 2 :=
  ⟨rfl, rfl, rfl, rfl, rfl, rfl⟩

end OSL
